import Mathlib

/-!
Shallow embedding of the RenatoUtsch/redes_tp3 servent protocol
(src/utils.py, src/servent.py): wire codec for the three message kinds,
query model with sequence generator, and the servent engine's receive-loop
decision logic (classify, deduplicate, forward, answer).

Strings are modelled as byte lists (`List Nat`, wellformed when every
element is < 256); Python `struct` failures and uncaught exceptions are
modelled as `none` / `Except.error`.
-/

namespace RedesTp3

/-- Maximum key size in bytes (utils.py MAX_KEY_SIZE). -/
def MAX_KEY_SIZE : Nat := 40

/-- Maximum value size in bytes (utils.py MAX_VALUE_SIZE). -/
def MAX_VALUE_SIZE : Nat := 160

/-- Message type size (utils.py MESSAGE_TYPE_SIZE). -/
def MESSAGE_TYPE_SIZE : Nat := 2

/-- Possible types of message (utils.py MessageType enum). -/
inductive MessageType
  | CLIREQ
  | QUERY
  | RESPONSE
deriving DecidableEq, Repr

/-- Numeric value of each enum member. -/
def MessageType.value : MessageType → Nat
  | .CLIREQ => 1
  | .QUERY => 2
  | .RESPONSE => 3

/-- Python `MessageType(n)`: `none` models the `ValueError` raised for an
unknown value. -/
def messageTypeOfNat (n : Nat) : Option MessageType :=
  if n = 1 then some .CLIREQ
  else if n = 2 then some .QUERY
  else if n = 3 then some .RESPONSE
  else none

/-- A UDP address: `socket.inet_aton`/`inet_ntoa` are inverse bijections
between dotted-quad strings and 4-byte values, so the ip is modelled
directly as a natural number below 2^32. -/
structure Address where
  ip : Nat
  port : Nat
deriving DecidableEq, Repr

/-- utils.py QueryContent namedtuple: key, (ip, port) address, sequence. -/
structure QueryContent where
  key : List Nat
  address : Address
  sequence : Nat
deriving DecidableEq, Repr

/-- utils.py Query namedtuple: content and remaining ttl.  The ttl is an
`Int` because `unpack_query` returns the wire ttl minus one, which can
be -1. -/
structure Query where
  content : QueryContent
  ttl : Int
deriving DecidableEq, Repr

/-- utils.py QueryCreator: mutable sequence counter plus fixed initial ttl,
modelled by explicit state passing. -/
structure QueryCreator where
  next_sequence : Nat
  initial_ttl : Int
deriving DecidableEq, Repr

/-- QueryCreator.new_query: returns the new query and the updated creator
(the Python method mutates `_next_sequence` in place). -/
def QueryCreator.new_query (c : QueryCreator) (key : List Nat) (address : Address) :
    Query × QueryCreator :=
  (⟨⟨key, address, c.next_sequence⟩, c.initial_ttl⟩,
   ⟨c.next_sequence + 1, c.initial_ttl⟩)

/-- Big-endian 2-byte encoding of `n` (struct format `!H`). -/
def be2 (n : Nat) : List Nat := [n / 256 % 256, n % 256]

/-- Big-endian 4-byte encoding of `n` (struct formats `4s` and `!I`). -/
def be4 (n : Nat) : List Nat :=
  [n / 16777216 % 256, n / 65536 % 256, n / 256 % 256, n % 256]

/-- The 2-byte big-endian type tag (utils.py pack_type). -/
def pack_type (t : MessageType) : List Nat := be2 t.value

/-- Python `str.rstrip` with a NUL argument: drop all trailing zero bytes. -/
def rstrip0 (l : List Nat) : List Nat :=
  (l.reverse.dropWhile (· == 0)).reverse

/-- Consume one UTF-8 character from the front of a byte list, returning
the remainder, or `none` if the bytes do not start with a valid character
(strict UTF-8 as in CPython: no overlong forms, no surrogates, nothing
above U+10FFFF). -/
def utf8SplitChar : List Nat → Option (List Nat)
  | [] => none
  | b :: rest =>
    if b < 128 then some rest
    else if 194 ≤ b ∧ b ≤ 223 then
      match rest with
      | c1 :: rest2 => if 128 ≤ c1 ∧ c1 ≤ 191 then some rest2 else none
      | [] => none
    else if b = 224 then
      match rest with
      | c1 :: c2 :: rest2 =>
        if (160 ≤ c1 ∧ c1 ≤ 191) ∧ (128 ≤ c2 ∧ c2 ≤ 191) then some rest2 else none
      | _ => none
    else if (225 ≤ b ∧ b ≤ 236) ∨ b = 238 ∨ b = 239 then
      match rest with
      | c1 :: c2 :: rest2 =>
        if (128 ≤ c1 ∧ c1 ≤ 191) ∧ (128 ≤ c2 ∧ c2 ≤ 191) then some rest2 else none
      | _ => none
    else if b = 237 then
      match rest with
      | c1 :: c2 :: rest2 =>
        if (128 ≤ c1 ∧ c1 ≤ 159) ∧ (128 ≤ c2 ∧ c2 ≤ 191) then some rest2 else none
      | _ => none
    else if b = 240 then
      match rest with
      | c1 :: c2 :: c3 :: rest2 =>
        if (144 ≤ c1 ∧ c1 ≤ 191) ∧ (128 ≤ c2 ∧ c2 ≤ 191) ∧ (128 ≤ c3 ∧ c3 ≤ 191) then
          some rest2
        else none
      | _ => none
    else if 241 ≤ b ∧ b ≤ 243 then
      match rest with
      | c1 :: c2 :: c3 :: rest2 =>
        if (128 ≤ c1 ∧ c1 ≤ 191) ∧ (128 ≤ c2 ∧ c2 ≤ 191) ∧ (128 ≤ c3 ∧ c3 ≤ 191) then
          some rest2
        else none
      | _ => none
    else if b = 244 then
      match rest with
      | c1 :: c2 :: c3 :: rest2 =>
        if (128 ≤ c1 ∧ c1 ≤ 143) ∧ (128 ≤ c2 ∧ c2 ≤ 191) ∧ (128 ≤ c3 ∧ c3 ≤ 191) then
          some rest2
        else none
      | _ => none
    else none

/-- Fuel-bounded repeated consumption of UTF-8 characters. -/
def utf8ValidAux : Nat → List Nat → Bool
  | _, [] => true
  | 0, _ :: _ => false
  | fuel + 1, b :: rest =>
    match utf8SplitChar (b :: rest) with
    | some r => utf8ValidAux fuel r
    | none => false

/-- Whether a byte list is valid (strict) UTF-8, i.e. the encoding of some
string: models whether Python `bytes.decode()` succeeds or raises
UnicodeDecodeError.  The byte lists satisfying this predicate are exactly
the byte lists that denote Python strings in this embedding. -/
def utf8Valid (l : List Nat) : Bool := utf8ValidAux l.length l

/-- utils.py extract_message_type: read the first two bytes as a big-endian
tag and convert it to the enum.  `none` models both the `struct.error` on a
datagram shorter than two bytes and the `ValueError` on an unknown tag. -/
def extract_message_type (msg : List Nat) : Option MessageType :=
  match msg with
  | b0 :: b1 :: _ => messageTypeOfNat (b0 * 256 + b1)
  | _ => none

/-- utils.py pack_clireq: tag 1, then the key truncated to 40 bytes, then a
NUL terminator. -/
def pack_clireq (key : List Nat) : List Nat :=
  pack_type .CLIREQ ++ key.take MAX_KEY_SIZE ++ [0]

/-- utils.py unpack_clireq: check the tag (a mismatched but known tag is
only logged; an unknown tag raises, modelled as `none`), then decode the
remaining bytes (`.decode()` raises UnicodeDecodeError on invalid UTF-8,
modelled as `none`) and strip trailing NULs. -/
def unpack_clireq (clireq : List Nat) : Option (List Nat) :=
  (extract_message_type clireq).bind fun _ =>
    if utf8Valid (clireq.drop MESSAGE_TYPE_SIZE) then
      some (rstrip0 (clireq.drop MESSAGE_TYPE_SIZE))
    else none

/-- utils.py pack_response: tag 3, then `key '\t' value '\0'` with key and
value truncated to their maxima. -/
def pack_response (key value : List Nat) : List Nat :=
  pack_type .RESPONSE ++ key.take MAX_KEY_SIZE ++ [9] ++
    value.take MAX_VALUE_SIZE ++ [0]

/-- utils.py unpack_response: check the tag and decode as in
`unpack_clireq`, then return the response text with trailing NULs
stripped. -/
def unpack_response (response : List Nat) : Option (List Nat) :=
  (extract_message_type response).bind fun _ =>
    if utf8Valid (response.drop MESSAGE_TYPE_SIZE) then
      some (rstrip0 (response.drop MESSAGE_TYPE_SIZE))
    else none

/-- utils.py pack_query: header `!HH4sHI` (tag 2, ttl, origin ip, origin
port, sequence) followed by the key truncated to 40 bytes plus NUL.
`none` models the `struct.error` raised when ttl, port or sequence is out
of range for its field (or the ip is not a valid 32-bit address).  The
Python key argument is a str, modelled as a UTF-8 byte list, so the
emitted key payload is always an encoded string: the last conjunct
restricts the model to the queries Python can actually hold (byte-level
truncation at 40 stands in for Python's character truncation; the two
agree on keys of at most 40 bytes, the domain of every claim below). -/
def pack_query (query : Query) : Option (List Nat) :=
  if 0 ≤ query.ttl ∧ query.ttl < 65536 ∧
      query.content.address.ip < 4294967296 ∧
      query.content.address.port < 65536 ∧
      query.content.sequence < 4294967296 ∧
      utf8Valid (query.content.key.take MAX_KEY_SIZE ++ [0]) = true then
    some (pack_type .QUERY ++ be2 query.ttl.toNat ++
      be4 query.content.address.ip ++ be2 query.content.address.port ++
      be4 query.content.sequence ++ query.content.key.take MAX_KEY_SIZE ++ [0])
  else none

/-- utils.py unpack_query: parse the 14-byte header (a shorter buffer makes
`struct.unpack` raise, modelled as `none`), decode the key bytes
(`.decode()` raises UnicodeDecodeError on invalid UTF-8, modelled as
`none`) and strip trailing NULs, rebuild the address, and return the query
with ttl decremented by one.  An unknown tag raises in the `MessageType`
check (`none`); a known but mismatched tag is only logged. -/
def unpack_query (msg : List Nat) : Option Query :=
  match msg with
  | t1 :: t2 :: l1 :: l2 :: i1 :: i2 :: i3 :: i4 :: p1 :: p2 ::
      s1 :: s2 :: s3 :: s4 :: rest =>
    if utf8Valid rest then
      (messageTypeOfNat (t1 * 256 + t2)).map fun _ =>
        ⟨⟨rstrip0 rest,
          ⟨((i1 * 256 + i2) * 256 + i3) * 256 + i4, p1 * 256 + p2⟩,
          ((s1 * 256 + s2) * 256 + s3) * 256 + s4⟩,
         (l1 * 256 + l2 : Int) - 1⟩
    else none
  | _ => none

/-- The servent's key-value database, loaded once at startup. -/
abbrev Database := List (List Nat × List Nat)

/-- Python dict lookup `database[key]` / `key in database`. -/
def dbLookup : Database → List Nat → Option (List Nat)
  | [], _ => none
  | (k, v) :: rest, key => if k = key then some v else dbLookup rest key

/-- Mutable state of the servent's receive loop: the query creator and the
set of query contents already seen. -/
structure ServentState where
  query_creator : QueryCreator
  queries_seen : List QueryContent
deriving DecidableEq, Repr

/-- One outgoing datagram: payload bytes and destination address. -/
abbrev Send := List Nat × Address

/-- servent.py lines 67-72: if the query's key is in the database, send a
RESPONSE to the address carried in the query content. -/
def localAnswer (database : Database) (query : Query) : List Send :=
  match dbLookup database query.content.key with
  | some value => [(pack_response query.content.key value, query.content.address)]
  | none => []

/-- servent.py lines 59-65: if ttl > 0 and there are neighbors, pack the
query once and send it to every neighbor other than the message origin.
`Except.error` models a `struct.error` escaping from `pack_query`. -/
def forwards (neighbors : List Address) (query : Query) (origin : Address) :
    Except String (List Send) :=
  if 0 < query.ttl ∧ neighbors ≠ [] then
    match pack_query query with
    | some packed => .ok ((neighbors.filter (· ≠ origin)).map fun a => (packed, a))
    | none => .error "struct.error in pack_query"
  else .ok []

/-- servent.py lines 54-72: deduplicate on the query content, then forward
and answer locally; forwarded datagrams are sent before the response. -/
def processQuery (database : Database) (neighbors : List Address)
    (s : ServentState) (query : Query) (origin : Address) :
    Except String (ServentState × List Send) :=
  if query.content ∈ s.queries_seen then .ok (s, [])
  else
    match forwards neighbors query origin with
    | .error e => .error e
    | .ok fwd =>
      .ok (⟨s.query_creator, query.content :: s.queries_seen⟩,
           fwd ++ localAnswer database query)

/-- One iteration of the servent receive loop (servent.py lines 37-72) on a
received datagram: classify by tag, build or decode the query, then
deduplicate/forward/answer.  `Except.error` models an uncaught Python
exception terminating the loop; `.ok (state, sends)` models one completed
iteration with its outgoing datagrams. -/
def serventStep (database : Database) (neighbors : List Address)
    (s : ServentState) (msg : List Nat) (origin : Address) :
    Except String (ServentState × List Send) :=
  match extract_message_type msg with
  | none => .error "ValueError: unknown message type"
  | some .CLIREQ =>
    match unpack_clireq msg with
    | none => .error "UnicodeDecodeError in unpack_clireq"
    | some key =>
      match s.query_creator.new_query key origin with
      | (query, creator) =>
        processQuery database neighbors ⟨creator, s.queries_seen⟩ query origin
  | some .QUERY =>
    match unpack_query msg with
    | none => .error "struct.error or UnicodeDecodeError in unpack_query"
    | some query => processQuery database neighbors s query origin
  | some .RESPONSE => .ok (s, [])

/-- Whether an outgoing datagram carries the RESPONSE tag. -/
def isResponseSend (s : Send) : Bool := s.1.take 2 = [0, 3]

/-- Sequence numbers stamped by `n` successive `new_query` calls starting
from creator state `c`. -/
def stampSeqs (c : QueryCreator) (key : List Nat) (address : Address) : Nat → List Nat
  | 0 => []
  | n + 1 =>
    match c.new_query key address with
    | (q, c2) => q.content.sequence :: stampSeqs c2 key address n

/-! ## Helper lemmas -/

theorem rd2_be2 (n : Nat) (h : n < 65536) : n / 256 % 256 * 256 + n % 256 = n := by
  omega

theorem rd4_be4 (n : Nat) (h : n < 4294967296) :
    ((n / 16777216 % 256 * 256 + n / 65536 % 256) * 256 + n / 256 % 256) * 256 +
      n % 256 = n := by
  omega

/-- Stripping trailing NULs undoes appending the terminator, for data that
contains no NUL byte. -/
theorem rstrip0_append_zero {l : List Nat} (h : 0 ∉ l) : rstrip0 (l ++ [0]) = l := by
  unfold rstrip0
  rw [List.reverse_append]
  simp only [List.reverse_cons, List.reverse_nil, List.nil_append, List.singleton_append]
  rw [List.dropWhile_cons]
  simp only [beq_self_eq_true, if_true]
  have hd : l.reverse.dropWhile (· == 0) = l.reverse := by
    cases hrev : l.reverse with
    | nil => rfl
    | cons a t =>
      have ha : a ∈ l := by
        rw [← List.mem_reverse, hrev]
        exact List.mem_cons_self a t
      rw [List.dropWhile_cons]
      have hb : (a == 0) = false := by
        simp only [beq_eq_false_iff_ne, ne_eq]
        intro h0
        exact h (h0 ▸ ha)
      rw [hb]
      simp
  rw [hd, List.reverse_reverse]

set_option maxHeartbeats 2000000 in
/-- Splitting off one character shortens the byte list. -/
theorem utf8SplitChar_length {l r : List Nat} (h : utf8SplitChar l = some r) :
    r.length < l.length := by
  rcases l with _ | ⟨b, _ | ⟨c1, _ | ⟨c2, _ | ⟨c3, rest⟩⟩⟩⟩ <;>
      simp only [utf8SplitChar] at h <;>
      try split_ifs at h
  all_goals
    first
      | simp only [reduceCtorEq] at h
      | (injection h with h; subst h;
         simp only [List.length_cons, List.length_nil]; omega)

/-- The fuel argument of `utf8ValidAux` is irrelevant once it covers the
list length. -/
theorem utf8ValidAux_eq : ∀ (f1 f2 : Nat) (l : List Nat),
    l.length ≤ f1 → l.length ≤ f2 → utf8ValidAux f1 l = utf8ValidAux f2 l
  | _, _, [], _, _ => by simp [utf8ValidAux]
  | f1 + 1, f2 + 1, b :: rest, h1, h2 => by
    rw [utf8ValidAux, utf8ValidAux]
    cases hsp : utf8SplitChar (b :: rest) with
    | none => rfl
    | some r =>
      have hlen := utf8SplitChar_length hsp
      simp only [List.length_cons] at h1 h2 hlen
      exact utf8ValidAux_eq f1 f2 r (by omega) (by omega)

/-- One-step unfolding of `utf8Valid` on a nonempty byte list. -/
theorem utf8Valid_step (b : Nat) (rest : List Nat) :
    utf8Valid (b :: rest) =
      match utf8SplitChar (b :: rest) with
      | some r => utf8Valid r
      | none => false := by
  unfold utf8Valid
  rw [show (b :: rest).length = rest.length + 1 from rfl, utf8ValidAux]
  cases hsp : utf8SplitChar (b :: rest) with
  | none => rfl
  | some r =>
    have hlen := utf8SplitChar_length hsp
    simp only [List.length_cons] at hlen
    exact utf8ValidAux_eq rest.length r.length r (by omega) le_rfl

set_option maxHeartbeats 2000000 in
/-- Splitting a character off the front is unaffected by appending bytes
at the back. -/
theorem utf8SplitChar_append {l r m : List Nat} (h : utf8SplitChar l = some r) :
    utf8SplitChar (l ++ m) = some (r ++ m) := by
  rcases l with _ | ⟨b, _ | ⟨c1, _ | ⟨c2, _ | ⟨c3, rest⟩⟩⟩⟩ <;>
      simp only [utf8SplitChar, List.cons_append, List.nil_append] at h ⊢ <;>
      try split_ifs at h ⊢
  all_goals
    first
      | simp only [reduceCtorEq] at h
      | (injection h with h; subst h; rfl)

/-- Concatenating two valid UTF-8 byte lists yields a valid one. -/
theorem utf8Valid_append : ∀ (l m : List Nat), utf8Valid l = true →
    utf8Valid m = true → utf8Valid (l ++ m) = true
  | [], m, _, h2 => by simpa using h2
  | b :: rest, m, h1, h2 => by
    rw [utf8Valid_step] at h1
    cases hsp : utf8SplitChar (b :: rest) with
    | none => rw [hsp] at h1; exact absurd h1 (by simp)
    | some r =>
      rw [hsp] at h1
      rw [List.cons_append, utf8Valid_step]
      have hsp2 : utf8SplitChar (b :: (rest ++ m)) = some (r ++ m) := by
        rw [← List.cons_append]
        exact utf8SplitChar_append hsp
      rw [hsp2]
      have hlen := utf8SplitChar_length hsp
      exact utf8Valid_append r m h1 h2
  termination_by l _ _ _ => l.length
  decreasing_by simp only [List.length_cons] at *; omega

/-- Decoding any successfully packed query returns the truncated,
NUL-stripped key, the same address and sequence, and the ttl decremented
by one. -/
theorem unpack_pack_query {q : Query} {pkt : List Nat} (h : pack_query q = some pkt) :
    unpack_query pkt =
      some ⟨⟨rstrip0 (q.content.key.take MAX_KEY_SIZE ++ [0]), q.content.address,
             q.content.sequence⟩, q.ttl - 1⟩ := by
  unfold pack_query at h
  split at h
  case isFalse => exact absurd h (by simp)
  case isTrue hc =>
    obtain ⟨h0, h1, hip, hport, hseq, hu8⟩ := hc
    injection h with h
    subst h
    simp only [pack_type, MessageType.value, be2, be4, List.cons_append, List.nil_append,
      Nat.reduceDiv, Nat.reduceMod]
    simp only [unpack_query, messageTypeOfNat, Nat.reduceMul, Nat.reduceAdd, hu8,
      if_true]
    norm_num
    refine ⟨⟨?_, ?_⟩, ?_⟩
    · exact congr_arg₂ (fun a b => (⟨a, b⟩ : Address)) (rd4_be4 _ hip) (rd2_be2 _ hport)
    · exact rd4_be4 _ hseq
    · rw [sup_eq_left.mpr h0]
      omega

/-- A packed query always carries the QUERY tag in its first two bytes. -/
theorem pack_query_take2 {q : Query} {pkt : List Nat} (h : pack_query q = some pkt) :
    pkt.take 2 = [0, 2] := by
  unfold pack_query at h
  split at h
  · injection h with h
    subst h
    rfl
  · exact absurd h (by simp)

/-- With ttl already exhausted, the forwarding step sends nothing. -/
theorem forwards_of_ttl_nonpos {neighbors : List Address} {q : Query} {o : Address}
    (h : q.ttl ≤ 0) : forwards neighbors q o = .ok [] := by
  unfold forwards
  rw [if_neg]
  intro hc
  exact absurd hc.1 (not_lt.mpr h)

/-- With positive ttl, neighbors present and a packable query, the forward
pass sends the packed query to every neighbor except the origin. -/
theorem forwards_eq {neighbors : List Address} {q : Query} {o : Address}
    {pkt : List Nat} (httl : 0 < q.ttl) (hne : neighbors ≠ [])
    (hp : pack_query q = some pkt) :
    forwards neighbors q o = .ok ((neighbors.filter (· ≠ o)).map fun a => (pkt, a)) := by
  unfold forwards
  rw [if_pos ⟨httl, hne⟩, hp]

/-- Processing a fresh (non-duplicate) query records it and emits the
forward sends followed by the local answer. -/
theorem processQuery_eq_of_fresh {database : Database} {neighbors : List Address}
    {s : ServentState} {q : Query} {o : Address} {fwd : List Send}
    (hdup : q.content ∉ s.queries_seen) (hfwd : forwards neighbors q o = .ok fwd) :
    processQuery database neighbors s q o =
      .ok (⟨s.query_creator, q.content :: s.queries_seen⟩,
           fwd ++ localAnswer database q) := by
  unfold processQuery
  rw [if_neg hdup, hfwd]

/-- Any successful processing of a fresh query splits its sends into the
forward pass followed by the local answer. -/
theorem processQuery_sends_of_fresh {database : Database} {neighbors : List Address}
    {s : ServentState} {q : Query} {o : Address} {s2 : ServentState} {sends : List Send}
    (hdup : q.content ∉ s.queries_seen)
    (hok : processQuery database neighbors s q o = .ok (s2, sends)) :
    ∃ fwd, forwards neighbors q o = .ok fwd ∧ sends = fwd ++ localAnswer database q ∧
      s2 = ⟨s.query_creator, q.content :: s.queries_seen⟩ := by
  unfold processQuery at hok
  rw [if_neg hdup] at hok
  cases hf : forwards neighbors q o with
  | error e =>
    rw [hf] at hok
    exact absurd hok (by simp)
  | ok fwd =>
    rw [hf] at hok
    injection hok with hok
    rw [Prod.mk.injEq] at hok
    exact ⟨fwd, rfl, hok.2.symm, hok.1.symm⟩

/-- After any successful processing, the query's content is in the seen set
and the query creator is untouched. -/
theorem processQuery_seen_after {database : Database} {neighbors : List Address}
    {s : ServentState} {q : Query} {o : Address} {s2 : ServentState} {sends : List Send}
    (hok : processQuery database neighbors s q o = .ok (s2, sends)) :
    q.content ∈ s2.queries_seen ∧ s2.query_creator = s.query_creator := by
  unfold processQuery at hok
  by_cases hd : q.content ∈ s.queries_seen
  · rw [if_pos hd] at hok
    injection hok with hok
    rw [Prod.mk.injEq] at hok
    obtain ⟨hs, -⟩ := hok
    subst hs
    exact ⟨hd, rfl⟩
  · rw [if_neg hd] at hok
    cases hf : forwards neighbors q o with
    | error e =>
      rw [hf] at hok
      exact absurd hok (by simp)
    | ok fwd =>
      rw [hf] at hok
      injection hok with hok
      rw [Prod.mk.injEq] at hok
      obtain ⟨hs, -⟩ := hok
      subst hs
      exact ⟨List.mem_cons_self _ _, rfl⟩

/-- Every datagram emitted by a forward pass carries the QUERY tag. -/
theorem forwards_sends_tag {neighbors : List Address} {q : Query} {o : Address}
    {fwd : List Send} (h : forwards neighbors q o = .ok fwd) :
    ∀ snd ∈ fwd, snd.1.take 2 = [0, 2] := by
  unfold forwards at h
  split at h
  · cases hp : pack_query q with
    | none =>
      rw [hp] at h
      exact absurd h (by simp)
    | some pkt =>
      rw [hp] at h
      injection h with h
      subst h
      intro snd hsnd
      obtain ⟨a, -, rfl⟩ := List.mem_map.mp hsnd
      exact pack_query_take2 hp
  · injection h with h
    subst h
    intro snd hsnd
    exact absurd hsnd (List.not_mem_nil _)

/-- One receive-loop iteration on an encoded CLIREQ with a wellformed key:
the engine stamps the key with the next sequence and the sender's address
and hands the resulting query to dedup/forward/answer. -/
theorem serventStep_clireq (database : Database) (neighbors : List Address)
    (s : ServentState) (key : List Nat) (origin : Address)
    (hlen : key.length ≤ MAX_KEY_SIZE) (h0 : 0 ∉ key)
    (h8 : utf8Valid key = true) :
    serventStep database neighbors s (pack_clireq key) origin =
      processQuery database neighbors
        ⟨⟨s.query_creator.next_sequence + 1, s.query_creator.initial_ttl⟩,
         s.queries_seen⟩
        ⟨⟨key, origin, s.query_creator.next_sequence⟩, s.query_creator.initial_ttl⟩
        origin := by
  unfold serventStep
  have hex : extract_message_type (pack_clireq key) = some .CLIREQ := by
    simp [pack_clireq, pack_type, MessageType.value, be2, extract_message_type,
      messageTypeOfNat]
  rw [hex]
  have hun : unpack_clireq (pack_clireq key) = some key := by
    have hd : (pack_clireq key).drop MESSAGE_TYPE_SIZE = key ++ [0] := by
      simp [pack_clireq, pack_type, MessageType.value, be2, MESSAGE_TYPE_SIZE,
        (List.take_of_length_le hlen : List.take MAX_KEY_SIZE key = key)]
    unfold unpack_clireq
    rw [hex]
    show (if utf8Valid ((pack_clireq key).drop MESSAGE_TYPE_SIZE) = true then
        some (rstrip0 ((pack_clireq key).drop MESSAGE_TYPE_SIZE)) else none) = some key
    rw [hd, if_pos (utf8Valid_append key [0] h8 (by decide)), rstrip0_append_zero h0]
  rw [hun]
  rfl

/-- Each successive `new_query` stamps a sequence at least as large as the
creator's counter. -/
theorem stampSeqs_le (key : List Nat) (address : Address) :
    ∀ (n : Nat) (c : QueryCreator), ∀ x ∈ stampSeqs c key address n,
      c.next_sequence ≤ x
  | 0, c => by
    intro x hx
    exact absurd hx (List.not_mem_nil x)
  | n + 1, c => by
    intro x hx
    simp only [stampSeqs, QueryCreator.new_query] at hx
    rcases List.mem_cons.mp hx with h | h
    · exact le_of_eq h.symm
    · have hle := stampSeqs_le key address n ⟨c.next_sequence + 1, c.initial_ttl⟩ x h
      rw [show (⟨c.next_sequence + 1, c.initial_ttl⟩ : QueryCreator).next_sequence =
        c.next_sequence + 1 from rfl] at hle
      omega

/-- Sequences stamped by successive `new_query` calls are strictly
increasing. -/
theorem stampSeqs_pairwise (key : List Nat) (address : Address) :
    ∀ (n : Nat) (c : QueryCreator), List.Pairwise (· < ·) (stampSeqs c key address n)
  | 0, _ => List.Pairwise.nil
  | n + 1, c => by
    simp only [stampSeqs, QueryCreator.new_query]
    refine List.Pairwise.cons ?_ (stampSeqs_pairwise key address n ⟨c.next_sequence + 1, c.initial_ttl⟩)
    intro x hx
    have hle := stampSeqs_le key address n ⟨c.next_sequence + 1, c.initial_ttl⟩ x hx
    rw [show (⟨c.next_sequence + 1, c.initial_ttl⟩ : QueryCreator).next_sequence =
      c.next_sequence + 1 from rfl] at hle
    omega

/-! ## Concrete values used by counterexamples and witnesses -/

/-- A client address (127.0.0.1:5000). -/
def exClient : Address := ⟨2130706433, 5000⟩

/-- A neighbor servent address (10.0.0.1:9001). -/
def exB : Address := ⟨167772161, 9001⟩

/-- The initial servent state: fresh creator, empty seen set. -/
def exState0 : ServentState := ⟨⟨0, 3⟩, []⟩

/-- A one-entry database mapping key [107] to value [118]. -/
def exDb : Database := [([107], [118])]

/-- A wire QUERY for key [107] with origin `exClient`, sequence 0 and wire
ttl 1. -/
def exSeenMsg : List Nat := [0, 2, 0, 1, 127, 0, 0, 1, 19, 136, 0, 0, 0, 0, 107, 0]

/-- A wire QUERY for key "baz" with origin `exClient`, sequence 70000 and
wire ttl 5. -/
def exBigSeqMsg : List Nat :=
  [0, 2, 0, 5, 127, 0, 0, 1, 19, 136, 0, 1, 17, 112, 98, 97, 122, 0]


/-! ## Claim theorems, counterexamples and witnesses -/


/-- C1 counterexample: for a wellformed query (key "baz", no NUL/tab, short
key) decoding the encoding does not return the original message: the ttl
comes back decremented (3 becomes 2). -/
theorem query_roundtrip_not_exact :
    (pack_query ⟨⟨[98, 97, 122], exClient, 7⟩, 3⟩).bind unpack_query =
      some ⟨⟨[98, 97, 122], exClient, 7⟩, 2⟩ ∧
    (pack_query ⟨⟨[98, 97, 122], exClient, 7⟩, 3⟩).bind unpack_query ≠
      some ⟨⟨[98, 97, 122], exClient, 7⟩, 3⟩ := by
  exact ⟨by decide, by decide⟩

/-- C1 amended: for keys and values that are encoded strings (valid UTF-8,
as every Python str argument is), decoding the encoding is exact for
CLIREQ and RESPONSE (the response text is the key, a tab, and the value),
and for QUERY it reproduces the content exactly while the ttl comes back
decremented by one. -/
theorem roundtrip_amended (key value : List Nat) (q : Query)
    (hk : key.length ≤ 40) (hk0 : 0 ∉ key) (hk8 : utf8Valid key = true)
    (hv : value.length ≤ 160) (hv0 : 0 ∉ value) (hv8 : utf8Valid value = true)
    (hqk : q.content.key.length ≤ 40) (hqk0 : 0 ∉ q.content.key)
    (hqk8 : utf8Valid q.content.key = true)
    (h0 : 0 ≤ q.ttl) (h1 : q.ttl < 65536)
    (hip : q.content.address.ip < 4294967296)
    (hport : q.content.address.port < 65536)
    (hseq : q.content.sequence < 4294967296) :
    unpack_clireq (pack_clireq key) = some key ∧
    unpack_response (pack_response key value) = some (key ++ [9] ++ value) ∧
    (pack_query q).bind unpack_query = some ⟨q.content, q.ttl - 1⟩ := by
  have htk : List.take MAX_KEY_SIZE key = key := List.take_of_length_le hk
  have htv : List.take MAX_VALUE_SIZE value = value := List.take_of_length_le hv
  have htq : List.take MAX_KEY_SIZE q.content.key = q.content.key :=
    List.take_of_length_le hqk
  refine ⟨?_, ?_, ?_⟩
  · have hex : extract_message_type (pack_clireq key) = some .CLIREQ := by
      simp [pack_clireq, pack_type, MessageType.value, be2, extract_message_type,
        messageTypeOfNat]
    have hd : (pack_clireq key).drop MESSAGE_TYPE_SIZE = key ++ [0] := by
      simp [pack_clireq, pack_type, MessageType.value, be2, MESSAGE_TYPE_SIZE, htk]
    unfold unpack_clireq
    rw [hex]
    show (if utf8Valid ((pack_clireq key).drop MESSAGE_TYPE_SIZE) = true then
        some (rstrip0 ((pack_clireq key).drop MESSAGE_TYPE_SIZE)) else none) = some key
    rw [hd, if_pos (utf8Valid_append key [0] hk8 (by decide)),
      rstrip0_append_zero hk0]
  · have hex : extract_message_type (pack_response key value) = some .RESPONSE := by
      simp [pack_response, pack_type, MessageType.value, be2, extract_message_type,
        messageTypeOfNat]
    have hd : (pack_response key value).drop MESSAGE_TYPE_SIZE =
        (key ++ [9] ++ value) ++ [0] := by
      simp [pack_response, pack_type, MessageType.value, be2, MESSAGE_TYPE_SIZE,
        htk, htv, List.append_assoc]
    have hmem : 0 ∉ key ++ [9] ++ value := by
      intro hm
      rcases List.mem_append.mp hm with hm | hm
      · rcases List.mem_append.mp hm with hm | hm
        · exact hk0 hm
        · simp at hm
      · exact hv0 hm
    have h8 : utf8Valid ((key ++ [9] ++ value) ++ [0]) = true :=
      utf8Valid_append (key ++ [9] ++ value) [0]
        (utf8Valid_append (key ++ [9]) value
          (utf8Valid_append key [9] hk8 (by decide)) hv8) (by decide)
    unfold unpack_response
    rw [hex]
    show (if utf8Valid ((pack_response key value).drop MESSAGE_TYPE_SIZE) = true then
        some (rstrip0 ((pack_response key value).drop MESSAGE_TYPE_SIZE))
      else none) = some (key ++ [9] ++ value)
    rw [hd, if_pos h8, rstrip0_append_zero hmem]
  · have hp : ∃ pkt, pack_query q = some pkt := by
      unfold pack_query
      rw [if_pos ⟨h0, h1, hip, hport, hseq, by
        rw [htq]; exact utf8Valid_append q.content.key [0] hqk8 (by decide)⟩]
      exact ⟨_, rfl⟩
    obtain ⟨pkt, hp⟩ := hp
    rw [hp]
    have hu := unpack_pack_query hp
    have hk2 : rstrip0 (q.content.key.take MAX_KEY_SIZE ++ [0]) = q.content.key := by
      rw [htq, rstrip0_append_zero hqk0]
    rw [hk2] at hu
    exact hu

/-- C1 witness: the amended round-trip at key [107], value [118] and a
concrete query with ttl 3. -/
theorem roundtrip_amended_witness :
    ([107] : List Nat).length ≤ 40 ∧
    (unpack_clireq (pack_clireq [107]) = some [107] ∧
     unpack_response (pack_response [107] [118]) = some ([107] ++ [9] ++ [118]) ∧
     (pack_query ⟨⟨[107], exClient, 7⟩, 3⟩).bind unpack_query =
       some ⟨⟨[107], exClient, 7⟩, 3 - 1⟩) :=
  ⟨by decide,
   roundtrip_amended [107] [118] ⟨⟨[107], exClient, 7⟩, 3⟩ (by decide) (by decide)
     (by decide) (by decide) (by decide) (by decide) (by decide) (by decide)
     (by decide) (by decide) (by decide) (by decide) (by decide) (by decide)⟩

/-- C4: decoding any successfully encoded query yields a ttl exactly one
less than the original, for every ttl in the uint16 range. -/
theorem ttl_decrement_roundtrip (q : Query) (pkt : List Nat)
    (_hn : 0 ≤ q.ttl) (_hb : q.ttl < 65536) (hp : pack_query q = some pkt) :
    ∃ q2, unpack_query pkt = some q2 ∧ q2.ttl = q.ttl - 1 :=
  ⟨_, unpack_pack_query hp, rfl⟩

/-- C4 witness: the ttl round-trip at a concrete query with ttl 3. -/
theorem ttl_decrement_roundtrip_witness :
    (0 : Int) ≤ 3 ∧
    (∃ q2, unpack_query [0, 2, 0, 3, 127, 0, 0, 1, 19, 136, 0, 0, 0, 7, 107, 0] =
        some q2 ∧ q2.ttl = 3 - 1) :=
  ⟨by decide,
   ttl_decrement_roundtrip ⟨⟨[107], exClient, 7⟩, 3⟩ _ (by decide) (by decide) rfl⟩



/-- The first four bytes of a packed query: the QUERY tag followed by the
big-endian ttl. -/
theorem pack_query_take4 {q : Query} {pkt : List Nat} (h : pack_query q = some pkt) :
    pkt.take 4 = [0, 2, q.ttl.toNat / 256 % 256, q.ttl.toNat % 256] := by
  unfold pack_query at h
  split at h
  · injection h with h
    subst h
    rfl
  · exact absurd h (by simp)

/-- C2 counterexample: servent A (database empty, single neighbor B,
initial state) receives CLIREQ("baz") from the client; the one QUERY it
sends to B carries wire ttl 3, not 2. -/
theorem clireq_forward_wire_ttl_three :
    (serventStep [] [exB] exState0 (pack_clireq [98, 97, 122]) exClient).toOption.map
        (fun r => r.2.map fun snd => (snd.1.take 4, snd.2)) =
      some [([0, 2, 0, 3], exB)] ∧
    ([0, 2, 0, 3] : List Nat) ≠ [0, 2, 0, 2] :=
  ⟨by decide, by decide⟩

/-- C2 amended: a servent with a non-empty neighbor list accepting a fresh
CLIREQ forwards a QUERY that carries wire ttl 3 (the fixed initial ttl,
packed undecremented); the receiving neighbor decodes it as ttl 2, so one
hop is consumed only at decode time. -/
theorem clireq_forward_ttl_amended (database : Database) (neighbors : List Address)
    (s : ServentState) (key : List Nat) (origin : Address)
    (hk : key.length ≤ 40) (hk0 : 0 ∉ key) (hk8 : utf8Valid key = true)
    (hit : s.query_creator.initial_ttl = 3)
    (hseq : s.query_creator.next_sequence < 4294967296)
    (hip : origin.ip < 4294967296) (hport : origin.port < 65536)
    (hfresh : (⟨key, origin, s.query_creator.next_sequence⟩ : QueryContent) ∉
      s.queries_seen)
    (hne : neighbors ≠ []) :
    ∃ pkt,
      pack_query ⟨⟨key, origin, s.query_creator.next_sequence⟩, 3⟩ = some pkt ∧
      serventStep database neighbors s (pack_clireq key) origin =
        .ok (⟨⟨s.query_creator.next_sequence + 1, 3⟩,
              ⟨key, origin, s.query_creator.next_sequence⟩ :: s.queries_seen⟩,
             ((neighbors.filter (· ≠ origin)).map fun a => (pkt, a)) ++
               localAnswer database ⟨⟨key, origin, s.query_creator.next_sequence⟩, 3⟩) ∧
      pkt.take 4 = [0, 2, 0, 3] ∧
      unpack_query pkt = some ⟨⟨key, origin, s.query_creator.next_sequence⟩, 2⟩ := by
  have hp : ∃ pkt, pack_query ⟨⟨key, origin, s.query_creator.next_sequence⟩, 3⟩ =
      some pkt := by
    unfold pack_query
    rw [if_pos]
    · exact ⟨_, rfl⟩
    · refine ⟨by norm_num, by norm_num, hip, hport, hseq, ?_⟩
      rw [(List.take_of_length_le hk : List.take MAX_KEY_SIZE key = key)]
      exact utf8Valid_append key [0] hk8 (by decide)
  obtain ⟨pkt, hp⟩ := hp
  refine ⟨pkt, hp, ?_, ?_, ?_⟩
  · rw [serventStep_clireq database neighbors s key origin hk hk0 hk8, hit]
    exact processQuery_eq_of_fresh hfresh (forwards_eq (by norm_num) hne hp)
  · rw [pack_query_take4 hp]
    norm_num [show ((⟨⟨key, origin, s.query_creator.next_sequence⟩, 3⟩ : Query)).ttl =
      (3 : Int) from rfl]
    omega
  · have hu := unpack_pack_query hp
    have hk2 : rstrip0 (List.take MAX_KEY_SIZE key ++ [0]) = key := by
      rw [(List.take_of_length_le hk : List.take MAX_KEY_SIZE key = key),
        rstrip0_append_zero hk0]
    rw [hk2] at hu
    norm_num at hu
    exact hu



/-- Equality of engine step results is decidable (used by concrete
witnesses). -/
instance instDecEqExceptStr {ε α : Type} [DecidableEq ε] [DecidableEq α] :
    DecidableEq (Except ε α) := fun x y =>
  match x, y with
  | .ok a, .ok b =>
    if h : a = b then isTrue (by rw [h])
    else isFalse (fun hc => h (Except.ok.inj hc))
  | .error a, .error b =>
    if h : a = b then isTrue (by rw [h])
    else isFalse (fun hc => h (Except.error.inj hc))
  | .ok a, .error b => isFalse (fun hc => Except.noConfusion hc)
  | .error a, .ok b => isFalse (fun hc => Except.noConfusion hc)

/-- C2 witness: servent A with single neighbor B and empty database
accepts CLIREQ("baz") from the client and forwards wire ttl 3, which B
would decode as 2. -/
theorem clireq_forward_ttl_amended_witness :
    ∃ pkt,
      pack_query ⟨⟨[98, 97, 122], exClient, 0⟩, 3⟩ = some pkt ∧
      serventStep [] [exB] exState0 (pack_clireq [98, 97, 122]) exClient =
        .ok (⟨⟨1, 3⟩, [⟨[98, 97, 122], exClient, 0⟩]⟩,
             (([exB].filter (· ≠ exClient)).map fun a => (pkt, a)) ++
               localAnswer [] ⟨⟨[98, 97, 122], exClient, 0⟩, 3⟩) ∧
      pkt.take 4 = [0, 2, 0, 3] ∧
      unpack_query pkt = some ⟨⟨[98, 97, 122], exClient, 0⟩, 2⟩ :=
  clireq_forward_ttl_amended [] [exB] exState0 [98, 97, 122] exClient (by decide)
    (by decide) (by decide) rfl (by decide) (by decide) (by decide) (by decide)
    (by decide)

/-- C5: the ttl guard gates only forwarding, never the local answer: a
fresh query with nonpositive decoded ttl whose key is in the database
produces no forward sends and exactly the RESPONSE, and the local answer
does not depend on the ttl at all. -/
theorem ttl_gates_only_forwarding (database : Database) (neighbors : List Address)
    (s : ServentState) (q : Query) (o : Address) (value : List Nat) (t1 t2 : Int)
    (hdup : q.content ∉ s.queries_seen) (httl : q.ttl ≤ 0)
    (hv : dbLookup database q.content.key = some value) :
    processQuery database neighbors s q o =
      .ok (⟨s.query_creator, q.content :: s.queries_seen⟩,
           [(pack_response q.content.key value, q.content.address)]) ∧
    localAnswer database ⟨q.content, t1⟩ = localAnswer database ⟨q.content, t2⟩ := by
  constructor
  · have h := @processQuery_eq_of_fresh database neighbors s q o [] hdup
      (@forwards_of_ttl_nonpos neighbors q o httl)
    rw [h, List.nil_append]
    unfold localAnswer
    rw [hv]
  · unfold localAnswer
    rfl

/-- C5 witness: a fresh ttl-0 query for a key the database holds. -/
theorem ttl_gates_only_forwarding_witness :
    ((⟨[107], exClient, 0⟩ : QueryContent) ∉ exState0.queries_seen) ∧
    (processQuery exDb [exB] exState0 ⟨⟨[107], exClient, 0⟩, 0⟩ exB =
        .ok (⟨⟨0, 3⟩, [⟨[107], exClient, 0⟩]⟩,
             [(pack_response [107] [118], exClient)]) ∧
      localAnswer exDb ⟨⟨[107], exClient, 0⟩, 0⟩ =
        localAnswer exDb ⟨⟨[107], exClient, 0⟩, 5⟩) :=
  ⟨by decide,
   ttl_gates_only_forwarding exDb [exB] exState0 ⟨⟨[107], exClient, 0⟩, 0⟩ exB [118]
     0 5 (by decide) (by decide) (by decide)⟩

/-- C6: feeding the engine the same encoded QUERY twice: after any
successful first iteration, the second iteration on the identical datagram
is discarded as a duplicate, with no sends and no state change. -/
theorem dedup_idempotent (database : Database) (neighbors : List Address)
    (s : ServentState) (msg : List Nat) (o : Address) (s1 : ServentState)
    (sends1 : List Send)
    (hmt : extract_message_type msg = some .QUERY)
    (h1 : serventStep database neighbors s msg o = .ok (s1, sends1)) :
    serventStep database neighbors s1 msg o = .ok (s1, []) := by
  unfold serventStep at h1 ⊢
  rw [hmt] at h1 ⊢
  cases hqe : unpack_query msg with
  | none =>
    rw [hqe] at h1
    exact absurd h1 (by simp)
  | some q =>
    rw [hqe] at h1
    have h2 : processQuery database neighbors s q o = .ok (s1, sends1) := h1
    have hmem : q.content ∈ s1.queries_seen := (processQuery_seen_after h2).1
    show processQuery database neighbors s1 q o = .ok (s1, [])
    unfold processQuery
    rw [if_pos hmem]

/-- C6 witness: the same wire QUERY processed twice from the same sender;
the second pass returns the unchanged state and no sends. -/
theorem dedup_idempotent_witness :
    serventStep exDb [] ⟨⟨0, 3⟩, [⟨[107], exClient, 0⟩]⟩ exSeenMsg exB =
      .ok (⟨⟨0, 3⟩, [⟨[107], exClient, 0⟩]⟩, []) :=
  dedup_idempotent exDb [] exState0 exSeenMsg exB ⟨⟨0, 3⟩, [⟨[107], exClient, 0⟩]⟩
    [(pack_response [107] [118], exClient)] (by decide) rfl

/-- C7: the forward pass of a fresh, live query sends the packed query to
exactly the neighbors other than the datagram's sender, and the sender is
never among the destinations even when it is a configured neighbor. -/
theorem forward_excludes_origin (database : Database) (neighbors : List Address)
    (s : ServentState) (q : Query) (o : Address) (pkt : List Nat)
    (hdup : q.content ∉ s.queries_seen) (httl : 0 < q.ttl) (hne : neighbors ≠ [])
    (hp : pack_query q = some pkt) :
    processQuery database neighbors s q o =
      .ok (⟨s.query_creator, q.content :: s.queries_seen⟩,
           ((neighbors.filter (· ≠ o)).map fun a => (pkt, a)) ++
             localAnswer database q) ∧
    o ∉ neighbors.filter (· ≠ o) := by
  refine ⟨processQuery_eq_of_fresh hdup (forwards_eq httl hne hp), ?_⟩
  intro hmem
  have h := (List.mem_filter.mp hmem).2
  simp at h

/-- C7 witness: the sender `exClient` is itself a configured neighbor and
is excluded from the forward destinations. -/
theorem forward_excludes_origin_witness :
    ((⟨[107], exClient, 0⟩ : QueryContent) ∉ exState0.queries_seen) ∧
    (processQuery exDb [exB, exClient] exState0 ⟨⟨[107], exClient, 0⟩, 2⟩ exClient =
        .ok (⟨⟨0, 3⟩, [⟨[107], exClient, 0⟩]⟩,
             ((([exB, exClient].filter (· ≠ exClient)).map
                 fun a => ([0, 2, 0, 2, 127, 0, 0, 1, 19, 136, 0, 0, 0, 0, 107, 0], a)) ++
               localAnswer exDb ⟨⟨[107], exClient, 0⟩, 2⟩)) ∧
      exClient ∉ [exB, exClient].filter (· ≠ exClient)) :=
  ⟨by decide,
   forward_excludes_origin exDb [exB, exClient] exState0 ⟨⟨[107], exClient, 0⟩, 2⟩
     exClient [0, 2, 0, 2, 127, 0, 0, 1, 19, 136, 0, 0, 0, 0, 107, 0]
     (by decide) (by decide) (by decide) (by decide)⟩

/-- C8: every successful processing of a fresh query whose key the
database holds emits exactly one RESPONSE datagram, and its destination is
the address carried inside the query content (the origin address), not the
datagram's sender. -/
theorem response_to_origin_address (database : Database) (neighbors : List Address)
    (s : ServentState) (q : Query) (o : Address) (s2 : ServentState)
    (sends : List Send) (value : List Nat)
    (hdup : q.content ∉ s.queries_seen)
    (hv : dbLookup database q.content.key = some value)
    (hok : processQuery database neighbors s q o = .ok (s2, sends)) :
    sends.filter isResponseSend =
      [(pack_response q.content.key value, q.content.address)] := by
  obtain ⟨fwd, hfwd, hs, -⟩ := processQuery_sends_of_fresh hdup hok
  subst hs
  rw [List.filter_append]
  have h1 : fwd.filter isResponseSend = [] := by
    rw [List.filter_eq_nil_iff]
    intro snd hsnd
    have ht := forwards_sends_tag hfwd snd hsnd
    simp [isResponseSend, ht]
  have h2 : (localAnswer database q).filter isResponseSend =
      [(pack_response q.content.key value, q.content.address)] := by
    unfold localAnswer
    rw [hv]
    have : isResponseSend (pack_response q.content.key value, q.content.address) =
        true := by
      simp [isResponseSend, pack_response, pack_type, MessageType.value, be2]
    simp [List.filter, this]
  rw [h1, h2, List.nil_append]

/-- C8 witness: a fresh live query for a held key, arriving from `exB`,
answered once, to the client address inside the query. -/
theorem response_to_origin_address_witness :
    dbLookup exDb [107] = some [118] ∧
    ([([0, 2, 0, 2, 127, 0, 0, 1, 19, 136, 0, 0, 0, 0, 107, 0], exB),
      (pack_response [107] [118], exClient)] : List Send).filter isResponseSend =
      [(pack_response [107] [118], exClient)] :=
  ⟨by decide,
   response_to_origin_address exDb [exB] exState0 ⟨⟨[107], exClient, 0⟩, 2⟩ exClient
     ⟨⟨0, 3⟩, [⟨[107], exClient, 0⟩]⟩
     [([0, 2, 0, 2, 127, 0, 0, 1, 19, 136, 0, 0, 0, 0, 107, 0], exB),
      (pack_response [107] [118], exClient)]
     [118] (by decide) (by decide) (by decide)⟩



/-- C9 counterexample: a servent forwards a QUERY whose sequence is 70000,
at least 2^16, transmitted faithfully: the wire sequence field is 32 bits
wide, not 16. -/
theorem sequence_32bit_counterexample :
    serventStep [] [exB] exState0 exBigSeqMsg exClient =
      .ok (⟨⟨0, 3⟩, [⟨[98, 97, 122], exClient, 70000⟩]⟩,
           [([0, 2, 0, 4, 127, 0, 0, 1, 19, 136, 0, 1, 17, 112, 98, 97, 122, 0], exB)]) ∧
    (unpack_query [0, 2, 0, 4, 127, 0, 0, 1, 19, 136, 0, 1, 17, 112, 98, 97, 122, 0]).map
        (fun q2 => q2.content.sequence) = some 70000 ∧
    65536 ≤ 70000 :=
  ⟨by decide, by decide, by decide⟩

/-- C9 amended: the sequence field of the QUERY wire layout occupies the
32 bits at byte offsets 10-13; any sequence below 2^32 is encoded there
and decoded back unchanged. -/
theorem sequence_field_32bit (q : Query) (pkt : List Nat)
    (hp : pack_query q = some pkt) :
    q.content.sequence < 4294967296 ∧
    (pkt.drop 10).take 4 = be4 q.content.sequence ∧
    ∃ q2, unpack_query pkt = some q2 ∧ q2.content.sequence = q.content.sequence := by
  have hu := unpack_pack_query hp
  unfold pack_query at hp
  split at hp
  case isFalse => exact absurd hp (by simp)
  case isTrue hc =>
    refine ⟨hc.2.2.2.2.1, ?_, ⟨_, hu, rfl⟩⟩
    injection hp with hp
    subst hp
    rfl

/-- C9 witness: the 32-bit sequence field at the concrete sequence 70000. -/
theorem sequence_field_32bit_witness :
    (70000 : Nat) < 4294967296 ∧
    (([0, 2, 0, 4, 127, 0, 0, 1, 19, 136, 0, 1, 17, 112, 98, 97, 122, 0] :
        List Nat).drop 10).take 4 = be4 70000 ∧
    ∃ q2, unpack_query [0, 2, 0, 4, 127, 0, 0, 1, 19, 136, 0, 1, 17, 112, 98, 97, 122, 0] =
        some q2 ∧ q2.content.sequence = 70000 :=
  sequence_field_32bit ⟨⟨[98, 97, 122], exClient, 70000⟩, 4⟩
    [0, 2, 0, 4, 127, 0, 0, 1, 19, 136, 0, 1, 17, 112, 98, 97, 122, 0] (by decide)

/-- C10 counterexample: a wire QUERY with content (key [107], exClient,
sequence 0) is seen first; the servent's next CLIREQ from exClient for the
same key is stamped with sequence 0, found in the seen set, and discarded:
no sends even though the key is in the database, and no state change
beyond the already-incremented counter. -/
theorem clireq_dedup_collision :
    serventStep exDb [] exState0 exSeenMsg exB =
      .ok (⟨⟨0, 3⟩, [⟨[107], exClient, 0⟩]⟩, [(pack_response [107] [118], exClient)]) ∧
    serventStep exDb [] ⟨⟨0, 3⟩, [⟨[107], exClient, 0⟩]⟩ (pack_clireq [107]) exClient =
      .ok (⟨⟨1, 3⟩, [⟨[107], exClient, 0⟩]⟩, []) ∧
    dbLookup exDb [107] = some [118] :=
  ⟨by decide, by decide, by decide⟩

/-- C10 amended: new_query stamps strictly increasing sequences, and a
CLIREQ whose stamped content is not yet in the seen set is processed, not
discarded: it is recorded and answered from the database (stated here with
no neighbors, isolating dedup from forwarding). -/
theorem sequence_monotone_fresh_clireq (c : QueryCreator) (k : List Nat) (a : Address)
    (n : Nat) (database : Database) (s : ServentState) (key : List Nat)
    (origin : Address)
    (hk : key.length ≤ 40) (hk0 : 0 ∉ key) (hk8 : utf8Valid key = true)
    (hfresh : (⟨key, origin, s.query_creator.next_sequence⟩ : QueryContent) ∉
      s.queries_seen) :
    List.Pairwise (· < ·) (stampSeqs c k a n) ∧
    serventStep database [] s (pack_clireq key) origin =
      .ok (⟨⟨s.query_creator.next_sequence + 1, s.query_creator.initial_ttl⟩,
            ⟨key, origin, s.query_creator.next_sequence⟩ :: s.queries_seen⟩,
           localAnswer database
             ⟨⟨key, origin, s.query_creator.next_sequence⟩,
              s.query_creator.initial_ttl⟩) := by
  refine ⟨stampSeqs_pairwise k a n c, ?_⟩
  rw [serventStep_clireq database [] s key origin hk hk0 hk8]
  have hf : forwards []
      ⟨⟨key, origin, s.query_creator.next_sequence⟩, s.query_creator.initial_ttl⟩
      origin = .ok [] := by
    unfold forwards
    rw [if_neg]
    intro hcond
    exact hcond.2 rfl
  have h := @processQuery_eq_of_fresh database []
    ⟨⟨s.query_creator.next_sequence + 1, s.query_creator.initial_ttl⟩, s.queries_seen⟩
    ⟨⟨key, origin, s.query_creator.next_sequence⟩, s.query_creator.initial_ttl⟩
    origin [] hfresh hf
  rw [h, List.nil_append]

/-- C10 witness: three stamped sequences strictly increase, and a fresh
CLIREQ for key [107] from the client is answered, not deduplicated. -/
theorem sequence_monotone_fresh_clireq_witness :
    List.Pairwise (· < ·) (stampSeqs ⟨0, 3⟩ [98] exB 3) ∧
    serventStep exDb [] exState0 (pack_clireq [107]) exClient =
      .ok (⟨⟨1, 3⟩, [⟨[107], exClient, 0⟩]⟩,
           localAnswer exDb ⟨⟨[107], exClient, 0⟩, 3⟩) :=
  sequence_monotone_fresh_clireq ⟨0, 3⟩ [98] exB 3 exDb exState0 [107] exClient
    (by decide) (by decide) (by decide) (by decide)


end RedesTp3
